import Mathlib

/-!
Verification of the satpass pass-prediction engine.

Shallow embedding conventions:
* Python floating-point arithmetic in the geometry kernel (`eclipse.py`,
  `calculate_elevation`) is modelled over the reals `ℝ`.
* Timestamps and elevations flowing through the pass-detection state machine
  (`pass_predictor.py`, `main.py`) are modelled as rationals `ℚ`
  (timestamps count seconds; the sampling cadences are exact multiples of 60 s).
* A Python call that may raise is modelled as returning an `Option`
  (`none` = the call raised) or, for `get_next_pass`, a `NextPassResult`
  with an explicit error constructor carrying the exception message.
* The external orbit-propagator is consumed as opaque capabilities:
  `ℚ → NextPassResult` for `get_next_pass` and `ℚ → Option ℚ` for the
  composite "position at time, then elevation from the observer" query
  (the observer location is fixed for one detection run).
* The unbounded `while` loop of `compute_passes` is modelled with an
  explicit fuel parameter bounding the number of iterations.
-/

namespace Satpass

/-! ### Geometry kernel (`eclipse.py`, `pass_predictor.calculate_elevation`) -/

/-- Euclidean norm of a 3-vector, `math.sqrt(x**2 + y**2 + z**2)`. -/
noncomputable def norm3 (v : ℝ × ℝ × ℝ) : ℝ :=
  Real.sqrt (v.1 ^ 2 + v.2.1 ^ 2 + v.2.2 ^ 2)

/-- Componentwise dot product of two 3-vectors. -/
def dot3 (u v : ℝ × ℝ × ℝ) : ℝ :=
  u.1 * v.1 + u.2.1 * v.2.1 + u.2.2 * v.2.2

/-- Normalisation of a 3-vector, `(x/d, y/d, z/d)` for `d` its norm
(`eclipse.py` lines 42-43). -/
noncomputable def unitize (v : ℝ × ℝ × ℝ) : ℝ × ℝ × ℝ :=
  (v.1 / norm3 v, v.2.1 / norm3 v, v.2.2 / norm3 v)

/-- The dot product of the unit satellite and unit illuminator vectors
(`eclipse.py` line 46). -/
noncomputable def unitDot (sat sun : ℝ × ℝ × ℝ) : ℝ :=
  dot3 (unitize sat) (unitize sun)

/-- `eclipse.is_in_eclipse`.  `none` models a raised exception:
a float division by zero when a vector being normalised has zero norm,
or a `math.acos` / `math.asin` domain error. -/
noncomputable def is_in_eclipse (sat sun : ℝ × ℝ × ℝ) (earth_radius_km : ℝ) :
    Option Bool :=
  let sat_distance := norm3 sat
  if sat_distance < earth_radius_km then some true
  else
    let sun_distance := norm3 sun
    if sat_distance = 0 then none          -- `sat_x / sat_distance` raises
    else if sun_distance = 0 then none     -- `sun_x / sun_distance` raises
    else
      let d := unitDot sat sun
      if 0 ≤ d then some false
      else if 1 < -d then none             -- `math.acos` domain error
      else
        let angle := Real.arccos (-d)
        if 1 < |earth_radius_km / sun_distance| then none
          -- `math.asin` domain error
        else
          let shadow_half_angle := Real.arcsin (earth_radius_km / sun_distance)
          if angle < shadow_half_angle + 0.01 then some true
          else
            let sun_unit := unitize sun
            let projection_length := d * sat_distance
            let projection_vector :=
              (sun_unit.1 * projection_length,
               sun_unit.2.1 * projection_length,
               sun_unit.2.2 * projection_length)
            let projection_distance := |projection_length|
            if projection_length < 0 ∧ earth_radius_km < projection_distance then
              let perp :=
                (sat.1 - projection_vector.1,
                 sat.2.1 - projection_vector.2.1,
                 sat.2.2 - projection_vector.2.2)
              let perp_distance := norm3 perp
              let shadow_radius_at_projection :=
                earth_radius_km * (1 - |projection_length| / sun_distance)
              if perp_distance < shadow_radius_at_projection then some true
              else some false
            else some false

/-- Observer geodetic coordinates to ECEF, as computed inline in
`calculate_elevation` (`pass_predictor.py` lines 214-225). -/
noncomputable def observerECEF (lat lon alt_m : ℝ) : ℝ × ℝ × ℝ :=
  let lat_rad := lat * Real.pi / 180
  let lon_rad := lon * Real.pi / 180
  let a : ℝ := 6378.137
  let e2 : ℝ := 0.00669437999014
  let alt_km := alt_m / 1000
  let N := a / Real.sqrt (1 - e2 * Real.sin lat_rad ^ 2)
  ((N + alt_km) * Real.cos lat_rad * Real.cos lon_rad,
   (N + alt_km) * Real.cos lat_rad * Real.sin lon_rad,
   (N * (1 - e2) + alt_km) * Real.sin lat_rad)

/-- `pass_predictor.calculate_elevation`.  Total: the degenerate geometries
return the documented fallback values. -/
noncomputable def calculate_elevation (sat : ℝ × ℝ × ℝ) (lat lon alt_m : ℝ) :
    ℝ :=
  let obs := observerECEF lat lon alt_m
  let dx := sat.1 - obs.1
  let dy := sat.2.1 - obs.2.1
  let dz := sat.2.2 - obs.2.2
  let distance := Real.sqrt (dx ^ 2 + dy ^ 2 + dz ^ 2)
  if distance = 0 then 90
  else
    let obs_mag := Real.sqrt (obs.1 ^ 2 + obs.2.1 ^ 2 + obs.2.2 ^ 2)
    if obs_mag = 0 then 0
    else
      let cos_angle :=
        (dx * (obs.1 / obs_mag) + dy * (obs.2.1 / obs_mag) +
          dz * (obs.2.2 / obs_mag)) / distance
      let elevation_rad := Real.arcsin (max (-1) (min 1 cos_angle))
      elevation_rad * 180 / Real.pi

/-! ### Sample sequencing and the eclipse classifier (`main.py`) -/

/-- Python `int()` applied to a rational: truncation toward zero. -/
def pyInt (q : ℚ) : ℤ :=
  if 0 ≤ q then ⌊q⌋ else ⌈q⌉

/-- `num_samples = max(5, int(duration / 60))` (`main.py` line 102). -/
def eclipseNumSamples (rise setT : ℚ) : ℕ :=
  max 5 (pyInt ((setT - rise) / 60)).toNat

/-- The sample times of `check_pass_eclipse` (`main.py` lines 104-107):
`rise + duration * i / (num_samples - 1)` for `i in range(num_samples)`. -/
def eclipseSampleTimes (rise setT : ℚ) : List ℚ :=
  (List.range (eclipseNumSamples rise setT)).map
    (fun (i : ℕ) => rise +
      (setT - rise) * (i : ℚ) / ((eclipseNumSamples rise setT : ℚ) - 1))

/-- The scanning loop of `check_pass_eclipse` (`main.py` lines 110-119):
`eclAt t = some true` means `is_in_eclipse` returned `True` at `t`,
`some false` that it returned `False`, `none` that a query raised
(the sample is skipped). -/
def eclipseScan (eclAt : ℚ → Option Bool) : List ℚ → Bool
  | [] => false
  | t :: rest =>
    match eclAt t with
    | some true => true
    | _ => eclipseScan eclAt rest

/-- `main.check_pass_eclipse`. -/
def check_pass_eclipse (eclAt : ℚ → Option Bool) (rise setT : ℚ) : Bool :=
  eclipseScan eclAt (eclipseSampleTimes rise setT)

/-! ### Pass records and peak refinement (`pass_predictor.py`) -/

/-- `pass_predictor.PassInfo`. -/
structure PassInfo where
  rise_time : ℚ
  peak_time : ℚ
  set_time : ℚ
  max_elevation : ℚ
  satellite_name : String
  satellite_id : String
deriving DecidableEq, Repr

/-- `pass_predictor.find_peak_elevation`: 50-sample scan of the elevation
capability over `[rise, set]`, keeping the strict maximum (first occurrence
wins ties); a sample whose query raises is skipped.  Initial state is
`(rise_time, -90.0)`. -/
def find_peak_elevation (elevAt : ℚ → Option ℚ) (rise setT : ℚ)
    (num_samples : ℕ) : ℚ × ℚ :=
  (List.range num_samples).foldl
    (fun acc i =>
      let t := rise + (setT - rise) * i / ((num_samples : ℚ) - 1)
      match elevAt t with
      | none => acc
      | some e => if acc.2 < e then (t, e) else acc)
    (rise, -90)

/-! ### Strategy B: threshold sampling (`compute_passes_by_sampling`) -/

/-- The mutable locals of the sampling loop
(`pass_predictor.py` lines 357-362). -/
structure BState where
  passes : List PassInfo
  in_pass : Bool
  pass_start : Option ℚ
  pass_elevations : List ℚ
  pass_times : List ℚ
deriving DecidableEq, Repr

/-- Python `max(lst)` for a nonempty list (guarded by `len > 0` at call
sites; the `[]` value is never used). -/
def listMax : List ℚ → ℚ
  | [] => -90
  | h :: t => t.foldl max h

/-- Closing a pass (`pass_predictor.py` lines 400-412 and 426-438):
peak is the first occurrence of the maximum recorded elevation,
`pass_times[pass_elevations.index(max(pass_elevations))]`. -/
def mkClosedPass (ps : ℚ) (elevs times : List ℚ) (setT : ℚ)
    (name id : String) : PassInfo :=
  let m := listMax elevs
  let idx := elevs.indexOf m
  { rise_time := ps
    peak_time := times.getD idx 0
    set_time := setT
    max_elevation := m
    satellite_name := name
    satellite_id := id }

/-- One iteration of the sampling loop body (`pass_predictor.py`
lines 364-420) at sample time `t`.  `elevAt t = none` models an exception
raised inside the `try` block: the whole body is skipped. -/
def bStep (elevAt : ℚ → Option ℚ) (minElev : ℚ) (name id : String)
    (st : BState) (t : ℚ) : BState :=
  match elevAt t with
  | none => st
  | some elevation =>
    if minElev ≤ elevation then
      if st.in_pass then
        { st with
          pass_elevations := st.pass_elevations ++ [elevation]
          pass_times := st.pass_times ++ [t] }
      else
        { st with
          in_pass := true
          pass_start := some t
          pass_elevations := [elevation]
          pass_times := [t] }
    else
      if st.in_pass then
        { passes := st.passes ++
            (match st.pass_start with
             | some ps =>
               if 0 < st.pass_elevations.length then
                 [mkClosedPass ps st.pass_elevations st.pass_times (t - 60)
                    name id]
               else []
             | none => [])
          in_pass := false
          pass_start := none
          pass_elevations := []
          pass_times := [] }
      else st

/-- The sample times visited by the `while current_time <= end_time` loop:
`cur, cur + 60, ...`, `n` of them. -/
def bSampleTimesAux : ℕ → ℚ → List ℚ
  | 0, _ => []
  | n + 1, cur => cur :: bSampleTimesAux n (cur + 60)

/-- Number of iterations of the sampling loop: the times `start + 60 k`
with `start + 60 k ≤ endT` are exactly `k ≤ ⌊(endT - start) / 60⌋`. -/
def bNumSamples (startT endT : ℚ) : ℕ :=
  (⌊(endT - startT) / 60⌋ + 1).toNat

/-- `pass_predictor.compute_passes_by_sampling` (Strategy B). -/
def compute_passes_by_sampling (elevAt : ℚ → Option ℚ)
    (startT endT minElev : ℚ) (name id : String) : List PassInfo :=
  let st := (bSampleTimesAux (bNumSamples startT endT) startT).foldl
    (bStep elevAt minElev name id)
    { passes := [], in_pass := false, pass_start := none,
      pass_elevations := [], pass_times := [] }
  st.passes ++
    (if st.in_pass then
      match st.pass_start with
      | some ps =>
        if 0 < st.pass_elevations.length then
          [mkClosedPass ps st.pass_elevations st.pass_times endT name id]
        else []
      | none => []
    else [])

/-! ### Strategy A: event search (`compute_passes`) -/

/-- The pass event returned by the propagator's `get_next_pass`:
`aos`, `los`, and optionally `(max_elevation_date, max_elevation_deg)`
(the `hasattr` check in `pass_predictor.py` line 88). -/
structure PassEvent where
  aos : ℚ
  los : ℚ
  peak : Option (ℚ × ℚ)
deriving DecidableEq, Repr

/-- Outcome of one `get_next_pass` call: an event, `StopIteration`,
or any other exception carrying its message. -/
inductive NextPassResult where
  | event : PassEvent → NextPassResult
  | noMore : NextPassResult
  | err : String → NextPassResult
deriving DecidableEq, Repr

/-- Python `str.lower()`. -/
def py_lower (s : String) : String := s.map Char.toLower

/-- Python `needle in hay` for strings. -/
def py_contains (hay needle : String) : Bool :=
  (hay.splitOn needle).length ≠ 1

/-- The record built from an accepted event (`pass_predictor.py`
lines 86-104): peak data from the event when present, else the
50-sample peak refinement. -/
def passRecordOfEvent (elevAt : ℚ → Option ℚ) (e : PassEvent)
    (name id : String) : PassInfo :=
  match e.peak with
  | some (pt, pe) =>
    { rise_time := e.aos, peak_time := pt, set_time := e.los,
      max_elevation := pe, satellite_name := name, satellite_id := id }
  | none =>
    let p := find_peak_elevation elevAt e.aos e.los 50
    { rise_time := e.aos, peak_time := p.1, set_time := e.los,
      max_elevation := p.2, satellite_name := name, satellite_id := id }

/-- The `while current_time < end_time` loop of `compute_passes`
(`pass_predictor.py` lines 62-137), with explicit fuel bounding the number
of iterations and an explicit accumulator for the `passes` list. -/
def computePassesAux (cap : ℚ → NextPassResult) (elevAt : ℚ → Option ℚ)
    (startT endT minElev : ℚ) (name id : String) :
    ℕ → ℚ → List PassInfo → List PassInfo
  | 0, _, passes => passes
  | fuel + 1, cur, passes =>
    if cur < endT then
      match cap cur with
      | .noMore => passes
      | .err msg =>
        -- both message classifications run the same fallback
        if py_contains (py_lower msg) "limit" ||
            py_contains (py_lower msg) "propagation" then
          compute_passes_by_sampling elevAt startT endT minElev name id
        else
          compute_passes_by_sampling elevAt startT endT minElev name id
      | .event e =>
        if endT < e.aos then passes
        else if e.aos < startT then
          computePassesAux cap elevAt startT endT minElev name id
            fuel (e.los + 1) passes
        else
          computePassesAux cap elevAt startT endT minElev name id
            fuel (e.los + 1)
            (passes ++ [passRecordOfEvent elevAt e name id])
    else passes

/-- `pass_predictor.compute_passes` (Strategy A with failover to B). -/
def compute_passes (fuel : ℕ) (cap : ℚ → NextPassResult)
    (elevAt : ℚ → Option ℚ) (startT endT minElev : ℚ)
    (name id : String) : List PassInfo :=
  computePassesAux cap elevAt startT endT minElev name id fuel startT []

/-! ### Invariants of the sampling loop -/

/-- Invariant of the Strategy B loop state after processing all samples up
to and including time `b`: every closed pass is well-formed, and while a
pass is open its buffers are aligned, nonempty, bounded by `[pass_start, b]`
and at or above the threshold. -/
def BInv (minElev endT b : ℚ) (st : BState) : Prop :=
  (∀ p ∈ st.passes,
    p.rise_time ≤ p.peak_time ∧ p.peak_time ≤ p.set_time ∧
      minElev ≤ p.max_elevation ∧ p.set_time ≤ endT) ∧
  (st.in_pass = true →
    ∃ ps, st.pass_start = some ps ∧
      st.pass_times ≠ [] ∧
      st.pass_elevations.length = st.pass_times.length ∧
      (∀ x ∈ st.pass_times, ps ≤ x ∧ x ≤ b) ∧
      (∀ el ∈ st.pass_elevations, minElev ≤ el))

/-- The sample times of the Strategy B scan, relative to a lower bound `b`:
each is at least one cadence step (60 s) after its predecessor and at most
`endT`. -/
def StepTimes (endT : ℚ) : ℚ → List ℚ → Prop
  | _, [] => True
  | b, t :: rest => b + 60 ≤ t ∧ t ≤ endT ∧ StepTimes endT t rest

/-! ### Basic facts about the embedded operations -/

lemma passRecordOfEvent_set_time (elevAt : ℚ → Option ℚ) (e : PassEvent)
    (name id : String) :
    (passRecordOfEvent elevAt e name id).set_time = e.los := by
  unfold passRecordOfEvent
  cases hp : e.peak with
  | none => rfl
  | some p => obtain ⟨pt, pe⟩ := p; rfl

lemma passRecordOfEvent_rise_time (elevAt : ℚ → Option ℚ) (e : PassEvent)
    (name id : String) :
    (passRecordOfEvent elevAt e name id).rise_time = e.aos := by
  unfold passRecordOfEvent
  cases hp : e.peak with
  | none => rfl
  | some p => obtain ⟨pt, pe⟩ := p; rfl

lemma foldl_max_mem (l : List ℚ) (h : ℚ) : l.foldl max h ∈ h :: l := by
  induction l generalizing h with
  | nil => simp
  | cons a t ih =>
    simp only [List.foldl_cons]
    rcases List.mem_cons.mp (ih (max h a)) with h1 | h1
    · rw [h1]
      rcases max_choice h a with hm | hm <;> rw [hm] <;> simp
    · simp [h1]

lemma listMax_mem (l : List ℚ) (hl : l ≠ []) : listMax l ∈ l := by
  cases l with
  | nil => exact absurd rfl hl
  | cons h t => exact foldl_max_mem t h

lemma mkClosedPass_spec (minElev ps b setT : ℚ) (elevs times : List ℚ)
    (name id : String)
    (hne : elevs ≠ []) (hlen : elevs.length = times.length)
    (hbound : ∀ x ∈ times, ps ≤ x ∧ x ≤ b)
    (helev : ∀ el ∈ elevs, minElev ≤ el) :
    (mkClosedPass ps elevs times setT name id).rise_time = ps ∧
    ps ≤ (mkClosedPass ps elevs times setT name id).peak_time ∧
    (mkClosedPass ps elevs times setT name id).peak_time ≤ b ∧
    (mkClosedPass ps elevs times setT name id).set_time = setT ∧
    minElev ≤ (mkClosedPass ps elevs times setT name id).max_elevation := by
  have hmem : listMax elevs ∈ elevs := listMax_mem elevs hne
  have hidx : elevs.indexOf (listMax elevs) < elevs.length :=
    List.indexOf_lt_length.mpr hmem
  have hidx' : elevs.indexOf (listMax elevs) < times.length := hlen ▸ hidx
  have hpm : (mkClosedPass ps elevs times setT name id).peak_time ∈ times := by
    show times.getD (elevs.indexOf (listMax elevs)) 0 ∈ times
    rw [List.getD_eq_getElem times 0 hidx']
    exact List.getElem_mem hidx'
  exact ⟨rfl, (hbound _ hpm).1, (hbound _ hpm).2, rfl, helev _ hmem⟩

lemma bStep_BInv (elevAt : ℚ → Option ℚ) (minElev endT : ℚ)
    (name id : String) (st : BState) (b t : ℚ)
    (hinv : BInv minElev endT b st) (hbt : b + 60 ≤ t) (ht : t ≤ endT) :
    BInv minElev endT t (bStep elevAt minElev name id st t) := by
  obtain ⟨hpasses, hip⟩ := hinv
  have hbt' : b ≤ t := by linarith
  unfold bStep
  cases he : elevAt t with
  | none =>
    refine ⟨hpasses, fun hi => ?_⟩
    obtain ⟨ps, h1, h2, h3, h4, h5⟩ := hip hi
    exact ⟨ps, h1, h2, h3,
      fun x hx => ⟨(h4 x hx).1, le_trans (h4 x hx).2 hbt'⟩, h5⟩
  | some elevation =>
    dsimp only
    by_cases hme : minElev ≤ elevation
    · rw [if_pos hme]
      by_cases hin : st.in_pass = true
      · rw [if_pos hin]
        refine ⟨hpasses, fun _ => ?_⟩
        obtain ⟨ps, h1, h2, h3, h4, h5⟩ := hip hin
        obtain ⟨x₀, hx₀⟩ := List.exists_mem_of_ne_nil _ h2
        have hps : ps ≤ t := le_trans (h4 x₀ hx₀).1
          (le_trans (h4 x₀ hx₀).2 hbt')
        refine ⟨ps, h1, by simp, by simp [h3], ?_, ?_⟩
        · intro x hx
          rcases List.mem_append.mp hx with hx | hx
          · exact ⟨(h4 x hx).1, le_trans (h4 x hx).2 hbt'⟩
          · rw [List.mem_singleton.mp hx]; exact ⟨hps, le_refl t⟩
        · intro el hel
          rcases List.mem_append.mp hel with hel | hel
          · exact h5 el hel
          · rw [List.mem_singleton.mp hel]; exact hme
      · rw [if_neg hin]
        refine ⟨hpasses, fun _ => ⟨t, rfl, by simp, by simp, ?_, ?_⟩⟩
        · intro x hx
          rw [List.mem_singleton.mp hx]; exact ⟨le_refl t, le_refl t⟩
        · intro el hel
          rw [List.mem_singleton.mp hel]; exact hme
    · rw [if_neg hme]
      by_cases hin : st.in_pass = true
      · rw [if_pos hin]
        obtain ⟨ps, h1, h2, h3, h4, h5⟩ := hip hin
        refine ⟨?_, fun hcontra => by simp at hcontra⟩
        intro p hp
        rw [h1] at hp
        dsimp only at hp
        have helevs_ne : st.pass_elevations ≠ [] := by
          intro hc
          rw [hc] at h3
          exact h2 (List.length_eq_zero.mp h3.symm)
        have hlen0 : 0 < st.pass_elevations.length :=
          List.length_pos.mpr helevs_ne
        rw [if_pos hlen0] at hp
        rcases List.mem_append.mp hp with hp | hp
        · exact hpasses p hp
        · rw [List.mem_singleton.mp hp]
          obtain ⟨hr, hp1, hp2, hs, hm⟩ := mkClosedPass_spec minElev ps b
            (t - 60) st.pass_elevations st.pass_times name id
            helevs_ne h3 h4 h5
          refine ⟨?_, ?_, hm, ?_⟩
          · rw [hr]; exact hp1
          · rw [hs]; exact le_trans hp2 (by linarith)
          · rw [hs]; linarith
      · rw [if_neg hin]
        refine ⟨hpasses, fun hi => ?_⟩
        obtain ⟨ps, h1, h2, h3, h4, h5⟩ := hip hi
        exact ⟨ps, h1, h2, h3,
          fun x hx => ⟨(h4 x hx).1, le_trans (h4 x hx).2 hbt'⟩, h5⟩

lemma bFold_BInv (elevAt : ℚ → Option ℚ) (minElev endT : ℚ)
    (name id : String) :
    ∀ (ts : List ℚ) (st : BState) (b : ℚ), b ≤ endT →
      StepTimes endT b ts → BInv minElev endT b st →
      ∃ b', b' ≤ endT ∧
        BInv minElev endT b' (ts.foldl (bStep elevAt minElev name id) st) := by
  intro ts
  induction ts with
  | nil => exact fun st b hb _ hinv => ⟨b, hb, hinv⟩
  | cons t rest ih =>
    intro st b hb hst hinv
    obtain ⟨hbt, ht, hrest⟩ := hst
    exact ih (bStep elevAt minElev name id st t) t ht hrest
      (bStep_BInv elevAt minElev endT name id st b t hinv hbt ht)

lemma stepTimes_bSampleTimesAux (endT : ℚ) :
    ∀ (n : ℕ) (cur b : ℚ), b + 60 ≤ cur →
      cur + 60 * ((n : ℚ) - 1) ≤ endT →
      StepTimes endT b (bSampleTimesAux n cur) := by
  intro n
  induction n with
  | zero => intro cur b _ _; trivial
  | succ k ih =>
    intro cur b hb hlast
    have hk : (0 : ℚ) ≤ (k : ℚ) := Nat.cast_nonneg k
    have hlast' : cur + 60 * (k : ℚ) ≤ endT := by
      push_cast at hlast
      linarith
    have hcur : cur ≤ endT := by nlinarith
    refine ⟨hb, hcur, ih (cur + 60) cur (by linarith) ?_⟩
    linarith

lemma bNumSamples_pos_le (startT endT : ℚ)
    (hn : 0 < bNumSamples startT endT) :
    startT + 60 * ((bNumSamples startT endT : ℚ) - 1) ≤ endT := by
  have hfl : 0 ≤ ⌊(endT - startT) / 60⌋ := by
    by_contra hneg
    push_neg at hneg
    have : ⌊(endT - startT) / 60⌋ + 1 ≤ 0 := by omega
    rw [bNumSamples, Int.toNat_of_nonpos this] at hn
    exact absurd hn (lt_irrefl 0)
  have hcast : ((bNumSamples startT endT : ℕ) : ℚ) =
      (⌊(endT - startT) / 60⌋ : ℚ) + 1 := by
    rw [bNumSamples]
    have h1 : ((⌊(endT - startT) / 60⌋ + 1).toNat : ℤ) =
        ⌊(endT - startT) / 60⌋ + 1 := Int.toNat_of_nonneg (by omega)
    exact_mod_cast h1
  rw [hcast]
  have hle : (⌊(endT - startT) / 60⌋ : ℚ) ≤ (endT - startT) / 60 :=
    Int.floor_le _
  have : 60 * ((endT - startT) / 60) = endT - startT := by ring
  nlinarith

/-- Every record emitted by Strategy B is well-formed: `rise ≤ peak ≤ set`,
its peak elevation is at or above the detection threshold, and its set time
never exceeds the window end. -/
lemma strategyB_records (elevAt : ℚ → Option ℚ) (startT endT minElev : ℚ)
    (name id : String) :
    ∀ p ∈ compute_passes_by_sampling elevAt startT endT minElev name id,
      p.rise_time ≤ p.peak_time ∧ p.peak_time ≤ p.set_time ∧
        minElev ≤ p.max_elevation ∧ p.set_time ≤ endT := by
  intro p hp
  unfold compute_passes_by_sampling at hp
  cases hn : bNumSamples startT endT with
  | zero =>
    rw [hn] at hp
    simp [bSampleTimesAux, BState.in_pass] at hp
  | succ m =>
    rw [hn] at hp
    have hpos : 0 < bNumSamples startT endT := by omega
    have hlast := bNumSamples_pos_le startT endT hpos
    rw [hn] at hlast
    have hst : StepTimes endT (startT - 60) (bSampleTimesAux (m + 1) startT) :=
      stepTimes_bSampleTimesAux endT (m + 1) startT (startT - 60)
        (by linarith) hlast
    have hb0 : startT - 60 ≤ endT := by
      have hk : (0 : ℚ) ≤ (m : ℚ) := Nat.cast_nonneg m
      push_cast at hlast
      nlinarith
    have hinit : BInv minElev endT (startT - 60)
        { passes := [], in_pass := false, pass_start := none,
          pass_elevations := [], pass_times := [] } := by
      exact ⟨by simp, fun h => by simp at h⟩
    obtain ⟨b', hb', hinv⟩ := bFold_BInv elevAt minElev endT name id
      (bSampleTimesAux (m + 1) startT) _ _ hb0 hst hinit
    set st := (bSampleTimesAux (m + 1) startT).foldl
      (bStep elevAt minElev name id)
      { passes := [], in_pass := false, pass_start := none,
        pass_elevations := [], pass_times := [] } with hstdef
    obtain ⟨hpasses, hip⟩ := hinv
    rcases List.mem_append.mp hp with hp | hp
    · exact hpasses p hp
    · by_cases hin : st.in_pass = true
      · rw [if_pos hin] at hp
        obtain ⟨ps, h1, h2, h3, h4, h5⟩ := hip hin
        rw [h1] at hp
        dsimp only at hp
        have helevs_ne : st.pass_elevations ≠ [] := by
          intro hc
          rw [hc] at h3
          exact h2 (List.length_eq_zero.mp h3.symm)
        rw [if_pos (List.length_pos.mpr helevs_ne)] at hp
        rw [List.mem_singleton.mp hp]
        obtain ⟨hr, hp1, hp2, hs, hm⟩ := mkClosedPass_spec minElev ps b'
          endT st.pass_elevations st.pass_times name id
          helevs_ne h3 h4 h5
        refine ⟨?_, ?_, hm, ?_⟩
        · rw [hr]; exact hp1
        · rw [hs]; exact le_trans hp2 hb'
        · rw [hs]
      · rw [if_neg hin] at hp
        simp at hp

lemma find_peak_foldl_shape (elevAt : ℚ → Option ℚ) (rise setT : ℚ) (n : ℕ) :
    ∀ (l : List ℕ) (acc : ℚ × ℚ),
      (∀ i ∈ l, i < n) →
      (acc.1 = rise ∨ ∃ i : ℕ, i < n ∧
        acc.1 = rise + (setT - rise) * i / ((n : ℚ) - 1)) →
      ((l.foldl (fun acc i =>
          let t := rise + (setT - rise) * i / ((n : ℚ) - 1)
          match elevAt t with
          | none => acc
          | some e => if acc.2 < e then (t, e) else acc) acc).1 = rise ∨
        ∃ i : ℕ, i < n ∧
          (l.foldl (fun acc i =>
            let t := rise + (setT - rise) * i / ((n : ℚ) - 1)
            match elevAt t with
            | none => acc
            | some e => if acc.2 < e then (t, e) else acc) acc).1 =
            rise + (setT - rise) * i / ((n : ℚ) - 1)) := by
  intro l
  induction l with
  | nil => exact fun acc _ hacc => hacc
  | cons j t ih =>
    intro acc hl hacc
    refine ih _ (fun i hi => hl i (List.mem_cons_of_mem j hi)) ?_
    dsimp only
    cases he : elevAt (rise + (setT - rise) * j / ((n : ℚ) - 1)) with
    | none => exact hacc
    | some e =>
      dsimp only
      by_cases hlt : acc.2 < e
      · rw [if_pos hlt]
        exact Or.inr ⟨j, hl j (List.mem_cons_self j t), rfl⟩
      · rw [if_neg hlt]
        exact hacc

lemma find_peak_elevation_peak_range (elevAt : ℚ → Option ℚ)
    (rise setT : ℚ) (n : ℕ) (hrs : rise ≤ setT) (hn : 2 ≤ n) :
    rise ≤ (find_peak_elevation elevAt rise setT n).1 ∧
      (find_peak_elevation elevAt rise setT n).1 ≤ setT := by
  have hshape := find_peak_foldl_shape elevAt rise setT n (List.range n)
    (rise, -90) (fun i hi => List.mem_range.mp hi) (Or.inl rfl)
  have hn1 : (1 : ℚ) ≤ (n : ℚ) - 1 := by
    have : (2 : ℚ) ≤ (n : ℚ) := by exact_mod_cast hn
    linarith
  have hn0 : (0 : ℚ) < (n : ℚ) - 1 := by linarith
  rcases hshape with h0 | ⟨i, hi, heq⟩
  · rw [show (find_peak_elevation elevAt rise setT n).1 =
        ((List.range n).foldl (fun acc i =>
          let t := rise + (setT - rise) * i / ((n : ℚ) - 1)
          match elevAt t with
          | none => acc
          | some e => if acc.2 < e then (t, e) else acc) (rise, -90)).1
        from rfl, h0]
    exact ⟨le_refl rise, hrs⟩
  · rw [show (find_peak_elevation elevAt rise setT n).1 =
        ((List.range n).foldl (fun acc i =>
          let t := rise + (setT - rise) * i / ((n : ℚ) - 1)
          match elevAt t with
          | none => acc
          | some e => if acc.2 < e then (t, e) else acc) (rise, -90)).1
        from rfl, heq]
    have hi' : (i : ℚ) ≤ (n : ℚ) - 1 := by
      have : (i : ℚ) + 1 ≤ (n : ℚ) := by exact_mod_cast hi
      linarith
    have hnum0 : 0 ≤ (setT - rise) * (i : ℚ) :=
      mul_nonneg (by linarith) (Nat.cast_nonneg i)
    constructor
    · have : 0 ≤ (setT - rise) * (i : ℚ) / ((n : ℚ) - 1) :=
        div_nonneg hnum0 (le_of_lt hn0)
      linarith
    · have hmul : (setT - rise) * (i : ℚ) ≤ (setT - rise) * ((n : ℚ) - 1) :=
        mul_le_mul_of_nonneg_left hi' (by linarith)
    -- (setT - rise) * i / (n-1) ≤ setT - rise
      have hdiv : (setT - rise) * (i : ℚ) / ((n : ℚ) - 1) ≤
          (setT - rise) * ((n : ℚ) - 1) / ((n : ℚ) - 1) :=
        div_le_div_of_nonneg_right hmul (le_of_lt hn0)
      rw [mul_div_cancel_right₀ _ (ne_of_gt hn0)] at hdiv
      linarith

lemma find_peak_elevation_none (rise setT : ℚ) (n : ℕ) :
    find_peak_elevation (fun _ => none) rise setT n = (rise, -90) := by
  unfold find_peak_elevation
  suffices h : ∀ (l : List ℕ) (acc : ℚ × ℚ),
      l.foldl (fun acc i =>
        let t := rise + (setT - rise) * i / ((n : ℚ) - 1)
        match (fun _ : ℚ => (none : Option ℚ)) t with
        | none => acc
        | some e => if acc.2 < e then (t, e) else acc) acc = acc by
    exact h (List.range n) (rise, -90)
  intro l
  induction l with
  | nil => intro acc; rfl
  | cons a t ih => intro acc; exact ih acc

/-- Any predicate holding on every Strategy B record, on every accepted
event record, and on the initial accumulator, holds on every record the
Strategy A loop returns. -/
lemma computePassesAux_forall (cap : ℚ → NextPassResult)
    (elevAt : ℚ → Option ℚ) (startT endT minElev : ℚ) (name id : String)
    (pred : PassInfo → Prop)
    (hB : ∀ p ∈ compute_passes_by_sampling elevAt startT endT minElev name id,
      pred p)
    (hEv : ∀ cur e, cap cur = .event e →
      pred (passRecordOfEvent elevAt e name id)) :
    ∀ (fuel : ℕ) (cur : ℚ) (acc : List PassInfo),
      (∀ p ∈ acc, pred p) →
      ∀ p ∈ computePassesAux cap elevAt startT endT minElev name id
        fuel cur acc, pred p := by
  intro fuel
  induction fuel with
  | zero =>
    intro cur acc hacc p hp
    rw [computePassesAux] at hp
    exact hacc p hp
  | succ k ih =>
    intro cur acc hacc p hp
    rw [computePassesAux] at hp
    by_cases hc : cur < endT
    · rw [if_pos hc] at hp
      cases hcap : cap cur with
      | noMore =>
        rw [hcap] at hp
        exact hacc p hp
      | err msg =>
        rw [hcap] at hp
        dsimp only at hp
        rw [ite_self] at hp
        exact hB p hp
      | event e =>
        rw [hcap] at hp
        dsimp only at hp
        by_cases h1 : endT < e.aos
        · rw [if_pos h1] at hp
          exact hacc p hp
        · rw [if_neg h1] at hp
          by_cases h2 : e.aos < startT
          · rw [if_pos h2] at hp
            exact ih _ _ hacc p hp
          · rw [if_neg h2] at hp
            refine ih _ _ ?_ p hp
            intro q hq
            rcases List.mem_append.mp hq with hq | hq
            · exact hacc q hq
            · rw [List.mem_singleton.mp hq]
              exact hEv cur e hcap
    · rw [if_neg hc] at hp
      exact hacc p hp

lemma computePassesAux_stop (cap : ℚ → NextPassResult)
    (elevAt : ℚ → Option ℚ) (startT endT minElev : ℚ) (name id : String)
    (fuel : ℕ) (cur : ℚ) (acc : List PassInfo) (h : ¬ cur < endT) :
    computePassesAux cap elevAt startT endT minElev name id fuel cur acc =
      acc := by
  cases fuel with
  | zero => rw [computePassesAux]
  | succ k => rw [computePassesAux, if_neg h]

lemma computePassesAux_discard (cap : ℚ → NextPassResult)
    (elevAt : ℚ → Option ℚ) (startT endT minElev : ℚ) (name id : String)
    (fuel : ℕ) (cur : ℚ) (acc : List PassInfo) (e : PassEvent)
    (hcur : cur < endT) (hcap : cap cur = .event e) (h1 : endT < e.aos) :
    computePassesAux cap elevAt startT endT minElev name id
      (fuel + 1) cur acc = acc := by
  conv_lhs => rw [computePassesAux]
  rw [if_pos hcur, hcap]
  dsimp only
  rw [if_pos h1]

lemma computePassesAux_skip (cap : ℚ → NextPassResult)
    (elevAt : ℚ → Option ℚ) (startT endT minElev : ℚ) (name id : String)
    (fuel : ℕ) (cur : ℚ) (acc : List PassInfo) (e : PassEvent)
    (hcur : cur < endT) (hcap : cap cur = .event e)
    (h1 : e.aos ≤ endT) (h2 : e.aos < startT) :
    computePassesAux cap elevAt startT endT minElev name id
        (fuel + 1) cur acc =
      computePassesAux cap elevAt startT endT minElev name id
        fuel (e.los + 1) acc := by
  conv_lhs => rw [computePassesAux]
  rw [if_pos hcur, hcap]
  dsimp only
  rw [if_neg (not_lt.mpr h1), if_pos h2]

lemma computePassesAux_accept (cap : ℚ → NextPassResult)
    (elevAt : ℚ → Option ℚ) (startT endT minElev : ℚ) (name id : String)
    (fuel : ℕ) (cur : ℚ) (acc : List PassInfo) (e : PassEvent)
    (hcur : cur < endT) (hcap : cap cur = .event e)
    (h1 : startT ≤ e.aos) (h2 : e.aos ≤ endT) :
    computePassesAux cap elevAt startT endT minElev name id
        (fuel + 1) cur acc =
      computePassesAux cap elevAt startT endT minElev name id
        fuel (e.los + 1)
        (acc ++ [passRecordOfEvent elevAt e name id]) := by
  conv_lhs => rw [computePassesAux]
  rw [if_pos hcur, hcap]
  dsimp only
  rw [if_neg (not_lt.mpr h2), if_neg (not_lt.mpr h1)]

lemma eclipseScan_eq_true_iff (eclAt : ℚ → Option Bool) (ts : List ℚ) :
    eclipseScan eclAt ts = true ↔ ∃ t ∈ ts, eclAt t = some true := by
  induction ts with
  | nil => simp [eclipseScan]
  | cons t rest ih =>
    unfold eclipseScan
    cases h : eclAt t with
    | none => simp [h, ih]
    | some b =>
      cases b with
      | true => simp [h]
      | false => simp [h, ih]

/-! ### Claim theorems -/

lemma eclipseSampleTimes_length (rise setT : ℚ) :
    (eclipseSampleTimes rise setT).length = eclipseNumSamples rise setT := by
  rw [eclipseSampleTimes, List.length_map, List.length_range]

lemma eclipseSampleTimes_getD (rise setT : ℚ) (j : ℕ)
    (hj : j < eclipseNumSamples rise setT) :
    (eclipseSampleTimes rise setT).getD j 0 =
      rise + (setT - rise) * j /
        ((eclipseNumSamples rise setT : ℚ) - 1) := by
  have hj' : j < (eclipseSampleTimes rise setT).length := by
    rw [eclipseSampleTimes_length]; exact hj
  rw [List.getD_eq_getElem _ _ hj']
  simp only [eclipseSampleTimes, List.getElem_map, List.getElem_range]

/-- C5: in Strategy B, a sample time at which the position query raises an
exception is skipped entirely: the whole loop-body state (accumulated passes,
in-pass flag, pass start, elevations, times) is unchanged, so an exception
never closes an open pass. -/
theorem strategyB_exception_preserves_state (elevAt : ℚ → Option ℚ)
    (minElev : ℚ) (name id : String) (st : BState) (t : ℚ)
    (h : elevAt t = none) :
    bStep elevAt minElev name id st t = st := by
  unfold bStep
  rw [h]

theorem strategyB_exception_preserves_state_witness :
    (fun _ : ℚ => (none : Option ℚ)) 0 = none ∧
      bStep (fun _ => none) 10 "ISS" "25544"
        { passes := [], in_pass := true, pass_start := some 0,
          pass_elevations := [42], pass_times := [0] } 0 =
      { passes := [], in_pass := true, pass_start := some 0,
        pass_elevations := [42], pass_times := [0] } :=
  ⟨rfl, strategyB_exception_preserves_state (fun _ => none) 10 "ISS" "25544"
    { passes := [], in_pass := true, pass_start := some 0,
      pass_elevations := [42], pass_times := [0] } 0 rfl⟩

/-- C3: if `get_next_pass` raises any error, whatever its message says,
Strategy A is abandoned: the result is exactly what Strategy B produces on
the same window, regardless of the partial Strategy A results accumulated
so far. -/
theorem strategyA_error_failover (cap : ℚ → NextPassResult)
    (elevAt : ℚ → Option ℚ) (startT endT minElev : ℚ) (name id : String)
    (fuel : ℕ) (cur : ℚ) (acc : List PassInfo) (msg : String)
    (hcur : cur < endT) (hcap : cap cur = .err msg) :
    computePassesAux cap elevAt startT endT minElev name id
        (fuel + 1) cur acc =
      compute_passes_by_sampling elevAt startT endT minElev name id := by
  conv_lhs => rw [computePassesAux]
  rw [if_pos hcur, hcap]
  dsimp only
  exact ite_self _

theorem strategyA_error_failover_witness :
    (0 : ℚ) < 120 ∧
      (fun _ : ℚ => NextPassResult.err "boom") 0 = .err "boom" ∧
      computePassesAux (fun _ => .err "boom") (fun _ => none)
          0 120 0 "ISS" "25544" 4 7
          [{ rise_time := 1, peak_time := 2, set_time := 3,
             max_elevation := 4, satellite_name := "ISS",
             satellite_id := "25544" }] =
        compute_passes_by_sampling (fun _ => none) 0 120 0 "ISS" "25544" :=
  ⟨by norm_num, rfl,
    strategyA_error_failover (fun _ => .err "boom") (fun _ => none)
      0 120 0 "ISS" "25544" 3 7
      [{ rise_time := 1, peak_time := 2, set_time := 3, max_elevation := 4,
         satellite_name := "ISS", satellite_id := "25544" }]
      "boom" (by norm_num) rfl⟩

/-- C6: `check_pass_eclipse` returns true exactly when some sampled time
classifies as eclipsed (it short-circuits at the first such sample); it
returns false when no sample classifies as eclipsed, in particular when
every sample's query raises (`eclAt` constantly `none`), since a raising
sample is skipped rather than counted either way. -/
theorem check_pass_eclipse_true_iff (eclAt : ℚ → Option Bool)
    (rise setT : ℚ) :
    check_pass_eclipse eclAt rise setT = true ↔
      ∃ t ∈ eclipseSampleTimes rise setT, eclAt t = some true :=
  eclipseScan_eq_true_iff eclAt (eclipseSampleTimes rise setT)

/-- C8: eclipse sampling over a pass always uses at least 5 sample times —
`max 5 ⌊d / 60⌋` for a pass of `d ≥ 0` seconds — and the samples are evenly
spaced over `[rise, set]`, the first equal to `rise` and the last equal to
`set`. -/
theorem eclipse_sampling_floor_and_spacing (rise setT : ℚ) :
    (eclipseSampleTimes rise setT).length = eclipseNumSamples rise setT ∧
    5 ≤ eclipseNumSamples rise setT ∧
    (rise ≤ setT →
      (eclipseNumSamples rise setT : ℤ) = max 5 ⌊(setT - rise) / 60⌋) ∧
    (eclipseSampleTimes rise setT).head? = some rise ∧
    (eclipseSampleTimes rise setT).getLast? = some setT ∧
    (∀ i : ℕ, i + 1 < eclipseNumSamples rise setT →
      (eclipseSampleTimes rise setT).getD (i + 1) 0 -
        (eclipseSampleTimes rise setT).getD i 0 =
        (setT - rise) / ((eclipseNumSamples rise setT : ℚ) - 1)) := by
  have h5 : 5 ≤ eclipseNumSamples rise setT := le_max_left _ _
  have hn0 : eclipseNumSamples rise setT ≠ 0 := by omega
  obtain ⟨m, hm⟩ := Nat.exists_eq_succ_of_ne_zero hn0
  have hm4 : 4 ≤ m := by omega
  have hmQ : ((m : ℚ)) ≠ 0 := by
    have h0 : (0 : ℚ) < (m : ℚ) := by
      exact_mod_cast (show 0 < m by omega)
    exact ne_of_gt h0
  refine ⟨eclipseSampleTimes_length rise setT, h5, ?_, ?_, ?_, ?_⟩
  · intro h
    have hd : 0 ≤ (setT - rise) / 60 :=
      div_nonneg (by linarith) (by norm_num)
    rw [eclipseNumSamples, pyInt, if_pos hd, Nat.cast_max,
      Int.toNat_of_nonneg (Int.floor_nonneg.mpr hd)]
    norm_num
  · rw [eclipseSampleTimes, hm, List.range_succ_eq_map]
    simp
  · rw [eclipseSampleTimes, hm, List.range_succ, List.map_append]
    simp only [List.map_cons, List.map_nil]
    rw [List.getLast?_concat]
    have hcast : ((m + 1 : ℕ) : ℚ) - 1 = (m : ℚ) := by push_cast; ring
    rw [hcast]
    congr 1
    field_simp
  · intro i hi
    have hi1 : i < eclipseNumSamples rise setT := by omega
    rw [eclipseSampleTimes_getD rise setT (i + 1) hi,
      eclipseSampleTimes_getD rise setT i hi1]
    have hc : ((eclipseNumSamples rise setT : ℚ)) - 1 ≠ 0 := by
      have : (5 : ℚ) ≤ (eclipseNumSamples rise setT : ℚ) := by
        exact_mod_cast h5
      intro hco
      linarith
    push_cast
    field_simp
    ring

theorem eclipse_sampling_floor_and_spacing_witness :
    (0 : ℚ) ≤ 30 ∧
    (eclipseNumSamples 0 30 : ℤ) = max 5 ⌊((30 : ℚ) - 0) / 60⌋ ∧
    (0 : ℕ) + 1 < eclipseNumSamples 0 30 ∧
    (eclipseSampleTimes 0 30).getD (0 + 1) 0 -
        (eclipseSampleTimes 0 30).getD 0 0 =
      ((30 : ℚ) - 0) / ((eclipseNumSamples 0 30 : ℚ) - 1) := by
  have hns : eclipseNumSamples 0 30 = 5 := by
    rw [eclipseNumSamples, pyInt,
      if_pos (by norm_num : (0 : ℚ) ≤ ((30 : ℚ) - 0) / 60)]
    norm_num
  refine ⟨by norm_num,
    (eclipse_sampling_floor_and_spacing 0 30).2.2.1 (by norm_num),
    by rw [hns]; norm_num,
    (eclipse_sampling_floor_and_spacing 0 30).2.2.2.2.2 0
      (by rw [hns]; norm_num)⟩

/-- C7: Strategy A's handling of an event returned at cursor `cur`:
an event rising after `windowEnd` is discarded and the scan terminates
with the passes found so far; an event rising before `windowStart` is
excluded whole (not truncated) and the cursor advances past its set time;
any other event is accepted and appended. -/
theorem strategyA_window_edge_policy (cap : ℚ → NextPassResult)
    (elevAt : ℚ → Option ℚ) (startT endT minElev : ℚ) (name id : String)
    (fuel : ℕ) (cur : ℚ) (acc : List PassInfo) (e : PassEvent)
    (hcur : cur < endT) (hcap : cap cur = .event e) :
    (endT < e.aos →
      computePassesAux cap elevAt startT endT minElev name id
        (fuel + 1) cur acc = acc) ∧
    (e.aos ≤ endT → e.aos < startT →
      computePassesAux cap elevAt startT endT minElev name id
          (fuel + 1) cur acc =
        computePassesAux cap elevAt startT endT minElev name id
          fuel (e.los + 1) acc) ∧
    (startT ≤ e.aos → e.aos ≤ endT →
      computePassesAux cap elevAt startT endT minElev name id
          (fuel + 1) cur acc =
        computePassesAux cap elevAt startT endT minElev name id
          fuel (e.los + 1)
          (acc ++ [passRecordOfEvent elevAt e name id])) := by
  exact ⟨fun h1 => computePassesAux_discard cap elevAt startT endT minElev
      name id fuel cur acc e hcur hcap h1,
    fun h1 h2 => computePassesAux_skip cap elevAt startT endT minElev
      name id fuel cur acc e hcur hcap h1 h2,
    fun h1 h2 => computePassesAux_accept cap elevAt startT endT minElev
      name id fuel cur acc e hcur hcap h1 h2⟩

theorem strategyA_window_edge_policy_witness :
    computePassesAux (fun _ => .event ⟨200, 300, some (250, 50)⟩)
        (fun _ => none) 0 100 0 "n" "i" 1 0 [] = [] ∧
    computePassesAux (fun _ => .event ⟨-10, 5, some (2, 50)⟩)
        (fun _ => none) 0 100 0 "n" "i" 3 0 [] =
      computePassesAux (fun _ => .event ⟨-10, 5, some (2, 50)⟩)
        (fun _ => none) 0 100 0 "n" "i" 2 6 [] ∧
    computePassesAux (fun _ => .event ⟨10, 20, some (15, 50)⟩)
        (fun _ => none) 0 100 0 "n" "i" 1 0 [] =
      computePassesAux (fun _ => .event ⟨10, 20, some (15, 50)⟩)
        (fun _ => none) 0 100 0 "n" "i" 0 21
        ([] ++ [passRecordOfEvent (fun _ => none) ⟨10, 20, some (15, 50)⟩
          "n" "i"]) := by
  refine ⟨?_, ?_, ?_⟩
  · exact (strategyA_window_edge_policy
      (fun _ => .event ⟨200, 300, some (250, 50)⟩) (fun _ => none)
      0 100 0 "n" "i" 0 0 [] ⟨200, 300, some (250, 50)⟩
      (by norm_num) rfl).1 (by norm_num)
  · have h := (strategyA_window_edge_policy
      (fun _ => .event ⟨-10, 5, some (2, 50)⟩) (fun _ => none)
      0 100 0 "n" "i" 2 0 [] ⟨-10, 5, some (2, 50)⟩
      (by norm_num) rfl).2.1 (by norm_num) (by norm_num)
    norm_num at h
    exact h
  · have h := (strategyA_window_edge_policy
      (fun _ => .event ⟨10, 20, some (15, 50)⟩) (fun _ => none)
      0 100 0 "n" "i" 0 0 [] ⟨10, 20, some (15, 50)⟩
      (by norm_num) rfl).2.2 (by norm_num) (by norm_num)
    norm_num at h
    exact h

/-- C4: every `PassInfo` emitted by either strategy satisfies
`rise_time ≤ peak_time ≤ set_time`: unconditionally for Strategy B, and
for the full `compute_passes` entry point provided the event-search
capability honours its interface (each event has `aos ≤ los` and the peak
data it optionally carries lies within `[aos, los]`). -/
theorem pass_records_rise_le_peak_le_set :
    (∀ (elevAt : ℚ → Option ℚ) (startT endT minElev : ℚ) (name id : String),
      ∀ p ∈ compute_passes_by_sampling elevAt startT endT minElev name id,
        p.rise_time ≤ p.peak_time ∧ p.peak_time ≤ p.set_time) ∧
    (∀ (fuel : ℕ) (cap : ℚ → NextPassResult) (elevAt : ℚ → Option ℚ)
        (startT endT minElev : ℚ) (name id : String),
      (∀ t e, cap t = NextPassResult.event e → e.aos ≤ e.los ∧
        ∀ pt pe, e.peak = some (pt, pe) → e.aos ≤ pt ∧ pt ≤ e.los) →
      ∀ p ∈ compute_passes fuel cap elevAt startT endT minElev name id,
        p.rise_time ≤ p.peak_time ∧ p.peak_time ≤ p.set_time) := by
  constructor
  · intro elevAt startT endT minElev name id p hp
    obtain ⟨h1, h2, _, _⟩ :=
      strategyB_records elevAt startT endT minElev name id p hp
    exact ⟨h1, h2⟩
  · intro fuel cap elevAt startT endT minElev name id hwf
    refine computePassesAux_forall cap elevAt startT endT minElev name id
      (fun p => p.rise_time ≤ p.peak_time ∧ p.peak_time ≤ p.set_time)
      (fun p hp => ?_) (fun cur e hcap => ?_) fuel startT [] (by simp)
    · obtain ⟨h1, h2, _, _⟩ :=
        strategyB_records elevAt startT endT minElev name id p hp
      exact ⟨h1, h2⟩
    · obtain ⟨haoslos, hpk⟩ := hwf cur e hcap
      unfold passRecordOfEvent
      cases hp : e.peak with
      | some pr =>
        obtain ⟨pt, pe⟩ := pr
        obtain ⟨ha, hb⟩ := hpk pt pe hp
        exact ⟨ha, hb⟩
      | none =>
        obtain ⟨ha, hb⟩ := find_peak_elevation_peak_range elevAt e.aos e.los
          50 haoslos (by norm_num)
        exact ⟨ha, hb⟩

theorem pass_records_rise_le_peak_le_set_witness :
    (({ rise_time := 0, peak_time := 0, set_time := 60, max_elevation := 10,
        satellite_name := "n", satellite_id := "i" } : PassInfo) ∈
      compute_passes_by_sampling (fun _ => some 10) 0 60 0 "n" "i" ∧
      (0 : ℚ) ≤ 0 ∧ (0 : ℚ) ≤ 60) ∧
    (({ rise_time := 0, peak_time := 20, set_time := 40, max_elevation := 30,
        satellite_name := "n", satellite_id := "i" } : PassInfo) ∈
      compute_passes 2 (fun _ => .event ⟨0, 40, some (20, 30)⟩)
        (fun _ => none) 0 30 0 "n" "i" ∧
      (0 : ℚ) ≤ 20 ∧ (20 : ℚ) ≤ 40) := by
  have hn : bNumSamples 0 60 = 2 := by rw [bNumSamples]; norm_num; rfl
  have hB : compute_passes_by_sampling (fun _ => some 10) 0 60 0 "n" "i" =
      [{ rise_time := 0, peak_time := 0, set_time := 60, max_elevation := 10,
         satellite_name := "n", satellite_id := "i" }] := by
    rw [compute_passes_by_sampling, hn]
    norm_num [bSampleTimesAux, bStep, mkClosedPass, listMax, List.indexOf,
      List.findIdx, List.findIdx.go]
  have hA : compute_passes 2 (fun _ => .event ⟨0, 40, some (20, 30)⟩)
      (fun _ => none) 0 30 0 "n" "i" =
      [{ rise_time := 0, peak_time := 20, set_time := 40,
         max_elevation := 30, satellite_name := "n",
         satellite_id := "i" }] := by
    rw [compute_passes, show (2 : ℕ) = 1 + 1 from rfl, computePassesAux]
    norm_num [passRecordOfEvent, computePassesAux]
  have hm1 : ({ rise_time := 0, peak_time := 0, set_time := 60,
                max_elevation := 10, satellite_name := "n",
                satellite_id := "i" } : PassInfo) ∈
      compute_passes_by_sampling (fun _ => some 10) 0 60 0 "n" "i" := by
    rw [hB]; exact List.mem_singleton_self _
  have hm2 : ({ rise_time := 0, peak_time := 20, set_time := 40,
                max_elevation := 30, satellite_name := "n",
                satellite_id := "i" } : PassInfo) ∈
      compute_passes 2 (fun _ => .event ⟨0, 40, some (20, 30)⟩)
        (fun _ => none) 0 30 0 "n" "i" := by
    rw [hA]; exact List.mem_singleton_self _
  exact ⟨⟨hm1,
    pass_records_rise_le_peak_le_set.1 (fun _ => some 10) 0 60 0 "n" "i"
      _ hm1⟩,
   ⟨hm2,
    pass_records_rise_le_peak_le_set.2 2
      (fun _ => .event ⟨0, 40, some (20, 30)⟩) (fun _ => none) 0 30 0 "n" "i"
      (fun t e he => by
        cases he
        refine ⟨by norm_num, ?_⟩
        intro pt pe hpe
        cases hpe
        exact ⟨by norm_num, by norm_num⟩)
      _ hm2⟩⟩

/-- C2 (amended): every `PassInfo` returned by `compute_passes` has peak
elevation at or above the detection threshold, provided every event the
event-search capability returns carries peak-elevation data meeting the
threshold; Strategy B records meet it unconditionally.  (Without that
proviso the claim fails: when an event lacks peak data the sampled
fallback may return a peak as low as -90, see the counterexample.) -/
theorem compute_passes_peak_elevation_ge_min (fuel : ℕ)
    (cap : ℚ → NextPassResult) (elevAt : ℚ → Option ℚ)
    (startT endT minElev : ℚ) (name id : String)
    (hcap : ∀ t e, cap t = NextPassResult.event e →
      ∃ pt pe, e.peak = some (pt, pe) ∧ minElev ≤ pe) :
    ∀ p ∈ compute_passes fuel cap elevAt startT endT minElev name id,
      minElev ≤ p.max_elevation := by
  refine computePassesAux_forall cap elevAt startT endT minElev name id
    (fun p => minElev ≤ p.max_elevation)
    (fun p hp =>
      (strategyB_records elevAt startT endT minElev name id p hp).2.2.1)
    (fun cur e he => ?_) fuel startT [] (by simp)
  obtain ⟨pt, pe, hp, hge⟩ := hcap cur e he
  unfold passRecordOfEvent
  rw [hp]
  exact hge

theorem compute_passes_peak_elevation_ge_min_witness :
    ({ rise_time := 0, peak_time := 20, set_time := 40, max_elevation := 30,
       satellite_name := "n", satellite_id := "i" } : PassInfo) ∈
      compute_passes 2 (fun _ => .event ⟨0, 40, some (20, 30)⟩)
        (fun _ => none) 0 30 5 "n" "i" ∧
    (5 : ℚ) ≤ 30 := by
  have hA : compute_passes 2 (fun _ => .event ⟨0, 40, some (20, 30)⟩)
      (fun _ => none) 0 30 5 "n" "i" =
      [{ rise_time := 0, peak_time := 20, set_time := 40,
         max_elevation := 30, satellite_name := "n",
         satellite_id := "i" }] := by
    rw [compute_passes, show (2 : ℕ) = 1 + 1 from rfl, computePassesAux]
    norm_num [passRecordOfEvent, computePassesAux]
  have hm : ({ rise_time := 0, peak_time := 20, set_time := 40,
               max_elevation := 30, satellite_name := "n",
               satellite_id := "i" } : PassInfo) ∈
      compute_passes 2 (fun _ => .event ⟨0, 40, some (20, 30)⟩)
        (fun _ => none) 0 30 5 "n" "i" := by
    rw [hA]; exact List.mem_singleton_self _
  exact ⟨hm,
    compute_passes_peak_elevation_ge_min 2
      (fun _ => .event ⟨0, 40, some (20, 30)⟩) (fun _ => none) 0 30 5 "n" "i"
      (fun t e he => by
        cases he
        exact ⟨20, 30, rfl, by norm_num⟩)
      _ hm⟩

/-- C2 (counterexample to the claim as stated): with a capability whose
event carries no peak data and a position query that always raises, the
accepted pass is emitted with peak elevation -90, below the threshold 0. -/
theorem compute_passes_peak_below_threshold_cex :
    compute_passes 2 (fun _ => .event ⟨0, 100, none⟩) (fun _ => none)
        0 50 0 "n" "i" =
      [{ rise_time := 0, peak_time := 0, set_time := 100,
         max_elevation := -90, satellite_name := "n",
         satellite_id := "i" }] ∧
    ¬ (0 : ℚ) ≤ -90 := by
  constructor
  · rw [compute_passes, show (2 : ℕ) = 1 + 1 from rfl, computePassesAux]
    norm_num [passRecordOfEvent, computePassesAux,
      find_peak_elevation_none 0 100 50]
  · norm_num

/-- C10: the two strategies treat the window's trailing edge
asymmetrically.  Strategy A accepts an event whose rise is inside the
window and emits its propagator-reported set time unchanged, even beyond
`endT` (and the scan then stops); Strategy B never emits a set time later
than `endT`. -/
theorem trailing_edge_asymmetry :
    (∀ (cap : ℚ → NextPassResult) (elevAt : ℚ → Option ℚ)
        (startT endT minElev : ℚ) (name id : String) (fuel : ℕ) (cur : ℚ)
        (acc : List PassInfo) (e : PassEvent),
      cur < endT → cap cur = .event e → startT ≤ e.aos → e.aos ≤ endT →
      endT < e.los →
      computePassesAux cap elevAt startT endT minElev name id
          (fuel + 1) cur acc =
        acc ++ [passRecordOfEvent elevAt e name id] ∧
      (passRecordOfEvent elevAt e name id).set_time = e.los) ∧
    (∀ (elevAt : ℚ → Option ℚ) (startT endT minElev : ℚ) (name id : String),
      ∀ p ∈ compute_passes_by_sampling elevAt startT endT minElev name id,
        p.set_time ≤ endT) := by
  constructor
  · intro cap elevAt startT endT minElev name id fuel cur acc e
      hcur hcap h1 h2 h3
    refine ⟨?_, passRecordOfEvent_set_time elevAt e name id⟩
    rw [computePassesAux_accept cap elevAt startT endT minElev name id
      fuel cur acc e hcur hcap h1 h2]
    exact computePassesAux_stop cap elevAt startT endT minElev name id
      fuel (e.los + 1) _ (by intro hc; linarith)
  · intro elevAt startT endT minElev name id p hp
    exact (strategyB_records elevAt startT endT minElev name id p hp).2.2.2

theorem trailing_edge_asymmetry_witness :
    (computePassesAux (fun _ => .event ⟨5, 200, some (7, 33)⟩)
        (fun _ => none) 0 100 0 "n" "i" 1 0 [] =
      [] ++ [passRecordOfEvent (fun _ => none) ⟨5, 200, some (7, 33)⟩
        "n" "i"] ∧
      (passRecordOfEvent (fun _ => none) ⟨5, 200, some (7, 33)⟩
        "n" "i").set_time = 200) ∧
    (({ rise_time := 0, peak_time := 0, set_time := 60, max_elevation := 10,
        satellite_name := "n", satellite_id := "i" } : PassInfo) ∈
      compute_passes_by_sampling (fun _ => some 10) 0 60 0 "n" "i" ∧
      (60 : ℚ) ≤ 60) := by
  have hn : bNumSamples 0 60 = 2 := by rw [bNumSamples]; norm_num; rfl
  have hB : compute_passes_by_sampling (fun _ => some 10) 0 60 0 "n" "i" =
      [{ rise_time := 0, peak_time := 0, set_time := 60, max_elevation := 10,
         satellite_name := "n", satellite_id := "i" }] := by
    rw [compute_passes_by_sampling, hn]
    norm_num [bSampleTimesAux, bStep, mkClosedPass, listMax, List.indexOf,
      List.findIdx, List.findIdx.go]
  have hm : ({ rise_time := 0, peak_time := 0, set_time := 60,
               max_elevation := 10, satellite_name := "n",
               satellite_id := "i" } : PassInfo) ∈
      compute_passes_by_sampling (fun _ => some 10) 0 60 0 "n" "i" := by
    rw [hB]; exact List.mem_singleton_self _
  have h1 := trailing_edge_asymmetry.1 (fun _ => .event ⟨5, 200, some (7, 33)⟩)
    (fun _ => none) 0 100 0 "n" "i" 0 0 [] ⟨5, 200, some (7, 33)⟩
    (by norm_num) rfl (by norm_num) (by norm_num) (by norm_num)
  exact ⟨h1,
   ⟨hm,
    trailing_edge_asymmetry.2 (fun _ => some 10) 0 60 0 "n" "i" _ hm⟩⟩

/-! ### Geometry claims -/

lemma norm3_nonneg (v : ℝ × ℝ × ℝ) : 0 ≤ norm3 v := Real.sqrt_nonneg _

lemma sq_norm3 (v : ℝ × ℝ × ℝ) :
    norm3 v ^ 2 = v.1 ^ 2 + v.2.1 ^ 2 + v.2.2 ^ 2 := by
  rw [norm3, Real.sq_sqrt (by positivity)]

lemma abs_dot3_le (v w : ℝ × ℝ × ℝ) :
    |dot3 v w| ≤ norm3 v * norm3 w := by
  have hcs : (dot3 v w) ^ 2 ≤
      (v.1 ^ 2 + v.2.1 ^ 2 + v.2.2 ^ 2) *
        (w.1 ^ 2 + w.2.1 ^ 2 + w.2.2 ^ 2) := by
    simp only [dot3]
    nlinarith [sq_nonneg (v.1 * w.2.1 - v.2.1 * w.1),
      sq_nonneg (v.1 * w.2.2 - v.2.2 * w.1),
      sq_nonneg (v.2.1 * w.2.2 - v.2.2 * w.2.1)]
  have h1 : norm3 v * norm3 w =
      Real.sqrt ((v.1 ^ 2 + v.2.1 ^ 2 + v.2.2 ^ 2) *
        (w.1 ^ 2 + w.2.1 ^ 2 + w.2.2 ^ 2)) :=
    (Real.sqrt_mul (by positivity) _).symm
  rw [← Real.sqrt_sq_eq_abs, h1]
  exact Real.sqrt_le_sqrt hcs

lemma abs_unitDot_le_one (v w : ℝ × ℝ × ℝ)
    (hv : norm3 v ≠ 0) (hw : norm3 w ≠ 0) :
    |unitDot v w| ≤ 1 := by
  have hnv : 0 < norm3 v := lt_of_le_of_ne (norm3_nonneg v) (Ne.symm hv)
  have hnw : 0 < norm3 w := lt_of_le_of_ne (norm3_nonneg w) (Ne.symm hw)
  have hud : unitDot v w = dot3 v w / (norm3 v * norm3 w) := by
    unfold unitDot unitize dot3
    field_simp
  rw [hud, abs_div, abs_of_pos (mul_pos hnv hnw),
    div_le_one (mul_pos hnv hnw)]
  exact abs_dot3_le v w

/-- C1 (amended): whenever the satellite's distance from Earth's centre is
at least `earthRadiusKm` (below it the below-surface guard returns `True`
first) and the illuminator position is nonzero, a nonnegative dot product
of the unit vectors makes `is_in_eclipse` return `False`, regardless of
the illuminator's distance. -/
theorem eclipse_sunlit_short_circuit (sat sun : ℝ × ℝ × ℝ)
    (hsat : 6371 ≤ norm3 sat) (hsun : norm3 sun ≠ 0)
    (hdot : 0 ≤ unitDot sat sun) :
    is_in_eclipse sat sun 6371 = some false := by
  have hsat0 : ¬ (norm3 sat = 0) := by
    intro h
    rw [h] at hsat
    linarith
  simp only [is_in_eclipse]
  rw [if_neg (not_lt.mpr hsat), if_neg hsat0, if_neg hsun, if_pos hdot]

/-- C1 (counterexample to the claim as stated): for a position below the
Earth-radius guard the function returns `True` even though the unit-vector
dot product is `1 ≥ 0`. -/
theorem eclipse_below_surface_cex :
    unitDot (1, 0, 0) (1, 0, 0) = 1 ∧
    is_in_eclipse (1, 0, 0) (1, 0, 0) 6371 = some true := by
  have hn : norm3 ((1 : ℝ), 0, 0) = 1 := by
    rw [norm3]
    norm_num
  constructor
  · simp only [unitDot, unitize, dot3, hn]
    norm_num
  · simp only [is_in_eclipse]
    rw [if_pos (by rw [hn]; norm_num)]

theorem eclipse_sunlit_short_circuit_witness :
    (6371 : ℝ) ≤ norm3 (7000, 0, 0) ∧
    norm3 ((0 : ℝ), 149600000, 0) ≠ 0 ∧
    0 ≤ unitDot (7000, 0, 0) (0, 149600000, 0) ∧
    is_in_eclipse (7000, 0, 0) (0, 149600000, 0) 6371 = some false := by
  have h1 : norm3 ((7000 : ℝ), 0, 0) = 7000 := by
    rw [norm3, show ((7000 : ℝ)) ^ 2 + 0 ^ 2 + 0 ^ 2 = 7000 ^ 2 by norm_num,
      Real.sqrt_sq (by norm_num : (0 : ℝ) ≤ 7000)]
  have h2 : norm3 ((0 : ℝ), 149600000, 0) = 149600000 := by
    rw [norm3,
      show ((0 : ℝ)) ^ 2 + 149600000 ^ 2 + 0 ^ 2 = 149600000 ^ 2 by norm_num,
      Real.sqrt_sq (by norm_num : (0 : ℝ) ≤ 149600000)]
  have h3 : unitDot (7000, 0, 0) ((0 : ℝ), 149600000, 0) = 0 := by
    simp [unitDot, unitize, dot3]
  exact ⟨by rw [h1]; norm_num, by rw [h2]; norm_num, by rw [h3],
    eclipse_sunlit_short_circuit _ _ (by rw [h1]; norm_num)
      (by rw [h2]; norm_num) (by rw [h3])⟩

set_option maxHeartbeats 1000000 in
/-- C9 (amended): the elevation computation recovers every degenerate
geometry with the documented fallback values — 90° when the object
coincides with the observer (zero-length line of sight), 0° when the
observer vector has zero magnitude — and `is_in_eclipse` returns a boolean
without raising whenever the illuminator's distance is at least
`earthRadiusKm`.  (A zero-magnitude illuminator makes the unit-vector
division raise, see the counterexample.) -/
theorem geometry_degenerate_fallbacks :
    (∀ lat lon alt_m : ℝ,
      calculate_elevation (observerECEF lat lon alt_m) lat lon alt_m = 90) ∧
    (∀ (sat : ℝ × ℝ × ℝ) (lat lon alt_m : ℝ),
      observerECEF lat lon alt_m = (0, 0, 0) → sat ≠ (0, 0, 0) →
      calculate_elevation sat lat lon alt_m = 0) ∧
    (∀ sat sun : ℝ × ℝ × ℝ, 6371 ≤ norm3 sun →
      ∃ b, is_in_eclipse sat sun 6371 = some b) := by
  refine ⟨?_, ?_, ?_⟩
  · intro lat lon alt_m
    simp only [calculate_elevation, sub_self]
    norm_num
  · intro sat lat lon alt_m hobs hsat
    obtain ⟨x, y, z⟩ := sat
    have hne : ¬ (x = 0 ∧ y = 0 ∧ z = 0) := by
      intro h
      obtain ⟨hx, hy, hz⟩ := h
      exact hsat (by rw [hx, hy, hz])
    have hpos : 0 < x ^ 2 + y ^ 2 + z ^ 2 := by
      by_contra hle
      push_neg at hle
      have hx2 : x ^ 2 = 0 := le_antisymm
        (by nlinarith [sq_nonneg y, sq_nonneg z]) (sq_nonneg x)
      have hy2 : y ^ 2 = 0 := le_antisymm
        (by nlinarith [sq_nonneg x, sq_nonneg z]) (sq_nonneg y)
      have hz2 : z ^ 2 = 0 := le_antisymm
        (by nlinarith [sq_nonneg x, sq_nonneg y]) (sq_nonneg z)
      exact hne ⟨(pow_eq_zero_iff two_ne_zero).mp hx2,
        (pow_eq_zero_iff two_ne_zero).mp hy2,
        (pow_eq_zero_iff two_ne_zero).mp hz2⟩
    have hd : Real.sqrt (x ^ 2 + y ^ 2 + z ^ 2) ≠ 0 :=
      Real.sqrt_ne_zero'.mpr hpos
    simp only [calculate_elevation, hobs]
    norm_num
    exact hd
  · intro sat sun hsun
    simp only [is_in_eclipse]
    split_ifs with h1 h2 h3 h4 h5 h6 h7 h8 h9
    · exact ⟨true, rfl⟩
    · exfalso; rw [h2] at h1; norm_num at h1
    · exfalso; rw [h3] at hsun; norm_num at hsun
    · exact ⟨false, rfl⟩
    · exfalso
      have habs := abs_unitDot_le_one sat sun h2 h3
      rcases abs_le.mp habs with ⟨hlo, hhi⟩
      linarith
    · exfalso
      have hpos : (0 : ℝ) < norm3 sun := by linarith
      have hle1 : |6371 / norm3 sun| ≤ 1 := by
        rw [abs_of_nonneg (div_nonneg (by norm_num) (le_of_lt hpos)),
          div_le_one hpos]
        exact hsun
      linarith
    · exact ⟨true, rfl⟩
    · exact ⟨true, rfl⟩
    · exact ⟨false, rfl⟩
    · exact ⟨false, rfl⟩

/-- C9 (counterexample to the claim as stated): a zero-magnitude
illuminator position makes `is_in_eclipse` raise a division-by-zero
(modelled as `none`) rather than return a boolean. -/
theorem is_in_eclipse_zero_sun_raises :
    is_in_eclipse ((7000 : ℝ), 0, 0) ((0 : ℝ), 0, 0) 6371 = none := by
  have h1 : norm3 ((7000 : ℝ), 0, 0) = 7000 := by
    rw [norm3, show ((7000 : ℝ)) ^ 2 + 0 ^ 2 + 0 ^ 2 = 7000 ^ 2 by norm_num,
      Real.sqrt_sq (by norm_num : (0 : ℝ) ≤ 7000)]
  have h2 : norm3 ((0 : ℝ), 0, 0) = 0 := by
    rw [norm3]
    norm_num
  simp only [is_in_eclipse]
  rw [if_neg (by rw [h1]; norm_num), if_neg (by rw [h1]; norm_num),
    if_pos h2]

theorem geometry_degenerate_fallbacks_witness :
    observerECEF 90 0 (-1000 * 6378.137 * Real.sqrt (1 - 0.00669437999014)) =
      (0, 0, 0) ∧
    ((0, 0, 1) : ℝ × ℝ × ℝ) ≠ ((0, 0, 0) : ℝ × ℝ × ℝ) ∧
    calculate_elevation ((0, 0, 1) : ℝ × ℝ × ℝ) 90 0
      (-1000 * 6378.137 * Real.sqrt (1 - 0.00669437999014)) = 0 ∧
    (6371 : ℝ) ≤ norm3 ((0 : ℝ), 149600000, 0) ∧
    ∃ b, is_in_eclipse ((7000 : ℝ), 0, 0) ((0 : ℝ), 149600000, 0) 6371 =
      some b := by
  have hpi : (90 : ℝ) * Real.pi / 180 = Real.pi / 2 := by ring
  have hs2 : Real.sqrt (1 - 0.00669437999014) ^ 2 =
      1 - 0.00669437999014 := Real.sq_sqrt (by norm_num)
  have hspos : (0 : ℝ) < Real.sqrt (1 - 0.00669437999014) :=
    Real.sqrt_pos.mpr (by norm_num)
  have hsne : Real.sqrt (1 - 0.00669437999014) ≠ 0 := ne_of_gt hspos
  have hobs : observerECEF 90 0
      (-1000 * 6378.137 * Real.sqrt (1 - 0.00669437999014)) = (0, 0, 0) := by
    simp only [observerECEF, hpi, Real.cos_pi_div_two, Real.sin_pi_div_two,
      one_pow, mul_one, mul_zero, zero_mul, Prod.mk.injEq, true_and, and_true]
    set s := Real.sqrt (1 - 0.00669437999014)
    rw [← hs2]
    field_simp
    ring
  have hsat : ((0, 0, 1) : ℝ × ℝ × ℝ) ≠ ((0, 0, 0) : ℝ × ℝ × ℝ) := by simp
  have h2 : norm3 ((0 : ℝ), 149600000, 0) = 149600000 := by
    rw [norm3,
      show ((0 : ℝ)) ^ 2 + 149600000 ^ 2 + 0 ^ 2 = 149600000 ^ 2 by norm_num,
      Real.sqrt_sq (by norm_num : (0 : ℝ) ≤ 149600000)]
  exact ⟨hobs, hsat,
    geometry_degenerate_fallbacks.2.1 _ _ _ _ hobs hsat,
    by rw [h2]; norm_num,
    geometry_degenerate_fallbacks.2.2 _ _ (by rw [h2]; norm_num)⟩

end Satpass
